import Mathlib

/-!
Verification development for the Solunex Core-1 license platform.

The definitions below are a shallow embedding of the Python sources:
* `app/utils/signer.py`   — HMAC request signing, nonce store, verifier
* `app/api/license_verify.py` — validate / activate state machine
* `app/api/public_license_api.py` — public activate endpoint
* `app/api/license_bank.py` — admin renew / revoke
* `app/api/internal_orders.py` and `app/api/license.py` — idempotent issuance

Times are modelled as integer seconds (`Int`); Python `datetime` arithmetic
`timedelta(days=d)` becomes `d * 86400` seconds.  Machine-level details that
the endpoints never observe (database sessions, logging, e-mail) are elided;
every observable branch of the cited functions is kept.
-/

namespace Solunex

/-! ## Python string helpers (`.lower()`, `.upper()`, `.strip()`) -/

/-- Model of Python `str.lower()` (ASCII-faithful, which is all the code feeds it). -/
def pyLower (s : String) : String := ⟨s.data.map Char.toLower⟩

/-- Model of Python `str.upper()` (ASCII-faithful). -/
def pyUpper (s : String) : String := ⟨s.data.map Char.toUpper⟩

/-- ASCII whitespace, as stripped by Python `str.strip()`. -/
def isSpaceChar (c : Char) : Bool :=
  c = ' ' ∨ c = '\t' ∨ c = '\n' ∨ c = '\r' ∨ c = '\x0b' ∨ c = '\x0c'

/-- Model of Python `str.strip()`: drop whitespace from both ends. -/
def pyStrip (s : String) : String :=
  ⟨((s.data.dropWhile isSpaceChar).reverse.dropWhile isSpaceChar).reverse⟩

/-! ## SHA-256 over byte lists (`hashlib.sha256`)

Bytes are `Nat`s `< 256`; 32-bit words are `Nat`s reduced mod `2^32`. -/

namespace SHA256

def w32 (n : Nat) : Nat := n % 4294967296

def rotr (x n : Nat) : Nat := w32 ((x >>> n) ||| (x <<< (32 - n)))

def bnot32 (x : Nat) : Nat := x ^^^ 4294967295

/-- The 64 SHA-256 round constants. -/
def K : List Nat :=
  [1116352408, 1899447441, 3049323471, 3921009573,
   961987163, 1508970993, 2453635748, 2870763221,
   3624381080, 310598401, 607225278, 1426881987,
   1925078388, 2162078206, 2614888103, 3248222580,
   3835390401, 4022224774, 264347078, 604807628,
   770255983, 1249150122, 1555081692, 1996064986,
   2554220882, 2821834349, 2952996808, 3210313671,
   3336571891, 3584528711, 113926993, 338241895,
   666307205, 773529912, 1294757372, 1396182291,
   1695183700, 1986661051, 2177026350, 2456956037,
   2730485921, 2820302411, 3259730800, 3345764771,
   3516065817, 3600352804, 4094571909, 275423344,
   430227734, 506948616, 659060556, 883997877,
   958139571, 1322822218, 1537002063, 1747873779,
   1955562222, 2024104815, 2227730452, 2361852424,
   2428436474, 2756734187, 3204031479, 3329325298]

/-- Pad a byte message to a multiple of 64 bytes with `0x80`, zeros and the
big-endian 64-bit bit length, as in the SHA-256 specification. -/
def pad (msg : List Nat) : List Nat :=
  let len := msg.length
  let bitlen := len * 8
  let zeros := (119 - len % 64) % 64
  msg ++ [0x80] ++ List.replicate zeros 0 ++
    [bitlen >>> 56 % 256, bitlen >>> 48 % 256, bitlen >>> 40 % 256, bitlen >>> 32 % 256,
     bitlen >>> 24 % 256, bitlen >>> 16 % 256, bitlen >>> 8 % 256, bitlen % 256]

/-- Group bytes into big-endian 32-bit words. -/
def toWordsBE : List Nat → List Nat
  | a :: b :: c :: d :: rest => (a * 16777216 + b * 65536 + c * 256 + d) :: toWordsBE rest
  | _ => []

/-- Split a word list into chunks of 16 words (fuel-structured so that the
kernel can evaluate it; `fuel = ws.length` always suffices since every
step consumes at least one element). -/
def chunks16Aux : Nat → List Nat → List (List Nat)
  | 0, _ => []
  | fuel + 1, ws => if ws = [] then [] else ws.take 16 :: chunks16Aux fuel (ws.drop 16)

def chunks16 (ws : List Nat) : List (List Nat) := chunks16Aux ws.length ws

/-- Extend 16 schedule words to 64. -/
def extendSchedule (ws : List Nat) : Array Nat :=
  (List.range 48).foldl
    (fun acc _ =>
      let i := acc.size
      let x15 := acc.getD (i - 15) 0
      let x2 := acc.getD (i - 2) 0
      let s0 := rotr x15 7 ^^^ rotr x15 18 ^^^ (x15 >>> 3)
      let s1 := rotr x2 17 ^^^ rotr x2 19 ^^^ (x2 >>> 10)
      acc.push (w32 (acc.getD (i - 16) 0 + s0 + acc.getD (i - 7) 0 + s1)))
    ws.toArray

structure Hash8 where
  a : Nat
  b : Nat
  c : Nat
  d : Nat
  e : Nat
  f : Nat
  g : Nat
  hh : Nat
  deriving Repr, DecidableEq

def initH : Hash8 :=
  ⟨1779033703, 3144134277, 1013904242, 2773480762,
   1359893119, 2600822924, 528734635, 1541459225⟩

/-- One compression round. -/
def round (s : Hash8) (kw : Nat × Nat) : Hash8 :=
  let S1 := rotr s.e 6 ^^^ rotr s.e 11 ^^^ rotr s.e 25
  let ch := (s.e &&& s.f) ^^^ (bnot32 s.e &&& s.g)
  let temp1 := w32 (s.hh + S1 + ch + kw.1 + kw.2)
  let S0 := rotr s.a 2 ^^^ rotr s.a 13 ^^^ rotr s.a 22
  let maj := (s.a &&& s.b) ^^^ (s.a &&& s.c) ^^^ (s.b &&& s.c)
  let temp2 := w32 (S0 + maj)
  ⟨w32 (temp1 + temp2), s.a, s.b, s.c, w32 (s.d + temp1), s.e, s.f, s.g⟩

/-- Process one 16-word chunk. -/
def processChunk (h0 : Hash8) (chunk : List Nat) : Hash8 :=
  let w := (extendSchedule chunk).toList
  let s := (K.zip w).foldl round h0
  ⟨w32 (h0.a + s.a), w32 (h0.b + s.b), w32 (h0.c + s.c), w32 (h0.d + s.d),
   w32 (h0.e + s.e), w32 (h0.f + s.f), w32 (h0.g + s.g), w32 (h0.hh + s.hh)⟩

/-- Big-endian bytes of a 32-bit word. -/
def wordBytes (w : Nat) : List Nat :=
  [w >>> 24 % 256, w >>> 16 % 256, w >>> 8 % 256, w % 256]

/-- SHA-256 digest of a byte message: 32 bytes. -/
def sha256 (msg : List Nat) : List Nat :=
  let hs := (chunks16 (toWordsBE (pad msg))).foldl processChunk initH
  wordBytes hs.a ++ wordBytes hs.b ++ wordBytes hs.c ++ wordBytes hs.d ++
    wordBytes hs.e ++ wordBytes hs.f ++ wordBytes hs.g ++ wordBytes hs.hh

end SHA256

/-! ## HMAC-SHA256 (`hmac.new(key, msg, hashlib.sha256)`) -/

/-- HMAC-SHA256 over byte lists. -/
def hmacSha256 (key msg : List Nat) : List Nat :=
  let k0 := if key.length > 64 then SHA256.sha256 key else key
  let k := k0 ++ List.replicate (64 - k0.length) 0
  let ipad := k.map (fun b => b ^^^ 0x36)
  let opad := k.map (fun b => b ^^^ 0x5c)
  SHA256.sha256 (opad ++ SHA256.sha256 (ipad ++ msg))

/-- UTF-8 bytes of a string, as `Nat`s (the pure model of `String.toUTF8`). -/
def utf8 (s : String) : List Nat :=
  (s.data.flatMap String.utf8EncodeChar).map UInt8.toNat

/-- Lower-case hex digit for a nibble. -/
def hexDigitChar (n : Nat) : Char :=
  if n < 10 then Char.ofNat (48 + n) else Char.ofNat (87 + n)

/-- Lower-case hex characters of a byte list (Python `.hexdigest()`). -/
def hexChars : List Nat → List Char
  | [] => []
  | b :: bs => hexDigitChar (b % 256 / 16) :: hexDigitChar (b % 16) :: hexChars bs

/-- Lower-case hex string of a byte list. -/
def hexEncode (bs : List Nat) : String := ⟨hexChars bs⟩

/-! ## Configuration (`config.py`) -/

def HMAC_SECRET : String := "1f8c4a41d42b6e7e219a02c9d257fbafc9b171f4a5d8b011bf4dc9a2f03d718a"

def HMAC_TIMESTAMP_TOLERANCE : Int := 15

def HMAC_NONCE_TTL : Int := 60

/-! ## Nonce store (`signer.py`, `_store_nonce_memory`)

`config.py` sets `REDIS_URL = None`, so `_validate_and_store_nonce` always
takes the in-process path `_store_nonce_memory`.  The store is a map from
nonce to expiry timestamp, modelled as an association list. -/

abbrev NonceStore := List (String × Int)

/-- `_store_nonce_memory(nonce, ttl)` at the current time `now`:
purge expired entries, refuse a present nonce, otherwise record it. -/
def storeNonceMemory (store : NonceStore) (nonce : String) (ttl now : Int) :
    Bool × NonceStore :=
  let purged := store.filter (fun p => ¬ p.2 ≤ now)
  if purged.any (fun p => p.1 = nonce) then (false, purged)
  else (true, purged ++ [(nonce, now + ttl)])

/-- `_validate_and_store_nonce(nonce)`: with `REDIS_URL = None` this is the
memory store with `ttl = int(HMAC_NONCE_TTL or 60)`. -/
def validateAndStoreNonce (store : NonceStore) (nonce : String) (now : Int) :
    Bool × NonceStore :=
  storeNonceMemory store nonce (if HMAC_NONCE_TTL = 0 then 60 else HMAC_NONCE_TTL) now

/-! ## Signature computation and request verification (`signer.py`) -/

/-- `compute_signature(secret, timestamp, nonce, method, path, body)`:
HMAC-SHA256 over `f"{timestamp}:{nonce}:{method.upper()}:{path}:{body}"`,
lower-case hex output. -/
def compute_signature (secret timestamp nonce method path body : String) : String :=
  let base := timestamp ++ ":" ++ nonce ++ ":" ++ pyUpper method ++ ":" ++ path ++ ":" ++ body
  hexEncode (hmacSha256 (utf8 secret) (utf8 base))

/-- The three `x-solunex-*` HMAC headers; `none` models an absent header. -/
structure HmacHeaders where
  signature : Option String
  timestamp : Option String
  nonce : Option String
  deriving Repr, DecidableEq

/-- Outcomes of `verify_request_signature` (each `HTTPException` branch and
the success fall-through). -/
inductive AuthResult
  | ok
  | serverMisconfigured      -- 500 "HMAC_SECRET not configured"
  | missingHeaders           -- 401 "Missing HMAC headers"
  | invalidTimestamp         -- 400 "Invalid timestamp"
  | timestampOutOfWindow     -- 401 "Timestamp outside allowed window"
  | nonceReplayed            -- 401 "Nonce already used"
  | invalidSignature         -- 401 "Invalid signature"
  deriving Repr, DecidableEq

/-- Python truthiness of an optional string (`if not sig or ...`). -/
def strPresent : Option String → Bool
  | none => false
  | some s => s ≠ ""

/-- Decimal digit-string value; `none` when empty or a non-digit appears. -/
def digitsVal (cs : List Char) : Option Nat :=
  if cs = [] then none
  else cs.foldl
    (fun acc? c => acc?.bind (fun acc =>
      if c.isDigit then some (acc * 10 + (c.toNat - 48)) else none))
    (some 0)

/-- Model of Python `int(ts)` on a string: optional surrounding whitespace,
optional sign, decimal digits; `none` models the `ValueError`. -/
def pyInt? (s : String) : Option Int :=
  match (pyStrip s).data with
  | '-' :: rest => (digitsVal rest).map (fun n => -(n : Int))
  | '+' :: rest => (digitsVal rest).map (fun n => (n : Int))
  | cs => (digitsVal cs).map (fun n => (n : Int))

/-- `verify_request_signature(headers, method, path, body)` at time `now`,
with the nonce store threaded explicitly.  `secret` and `tolerance` are the
configuration values (`HMAC_SECRET`, `HMAC_TIMESTAMP_TOLERANCE`). -/
def verify_request_signature (secret : String) (tolerance : Int)
    (headers : HmacHeaders) (method path body : String) (now : Int)
    (store : NonceStore) : AuthResult × NonceStore :=
  if secret = "" then (.serverMisconfigured, store)
  else if ¬ (strPresent headers.signature ∧ strPresent headers.timestamp ∧
             strPresent headers.nonce) then (.missingHeaders, store)
  else
    let sig := pyLower (headers.signature.getD "")
    let ts := headers.timestamp.getD ""
    let nonce := headers.nonce.getD ""
    match pyInt? ts with
    | none => (.invalidTimestamp, store)
    | some tsInt =>
        if |now - tsInt| > (if tolerance = 0 then 15 else tolerance) then
          (.timestampOutOfWindow, store)
        else
          let (fresh, store') := validateAndStoreNonce store nonce now
          if ¬ fresh then (.nonceReplayed, store')
          else
            let expected := compute_signature secret ts nonce method path body
            if expected = sig then (.ok, store') else (.invalidSignature, store')

/-! ## License data model (`app/models/license_model.py`) -/

inductive LicenseStatus
  | active
  | revoked
  | expired
  deriving Repr, DecidableEq

/-- One entry of the `bound_devices` JSON list.  `license_verify.py` writes
`device_id` / `bound_at` / `meta`; `public_license_api.py` additionally
writes `last_seen`.  The schema-less `meta` blob is modelled as a string map. -/
structure Device where
  device_id : String
  bound_at : Int
  last_seen : Option Int
  meta : List (String × String)
  deriving Repr, DecidableEq

structure License where
  id : Nat
  license_key : String
  user_email : String
  app_id : String
  status : LicenseStatus
  generated_at : Int
  expires_at : Option Int
  last_verified : Option Int
  order_id : Option String
  payment_reference : Option String
  amount : Option Int
  currency : Option String
  is_bound : Bool
  max_devices : Option Nat
  bound_devices : List Device
  meta : List (String × String)
  deriving Repr, DecidableEq

/-- The `licenses` table. -/
abbrev LicenseStore := List License

/-- Apply a mutation to the row with the given key (commit of the fetched row). -/
def updateByKey (store : LicenseStore) (lk : String) (f : License → License) :
    LicenseStore :=
  store.map (fun L => if L.license_key = lk then f L else L)

/-- Apply a mutation to the row with the given numeric id. -/
def updateById (store : LicenseStore) (lid : Nat) (f : License → License) :
    LicenseStore :=
  store.map (fun L => if L.id = lid then f L else L)

/-- `lic.expires_at and lic.expires_at < now`. -/
def isExpired (lic : License) (now : Int) : Bool :=
  match lic.expires_at with
  | some e => e < now
  | none => false

/-- `payload.app_id and lic.app_id != payload.app_id`. -/
def appMismatch (lic : License) (app_id : Option String) : Bool :=
  strPresent app_id ∧ lic.app_id ≠ app_id.getD ""

/-! ## Validate endpoint (`license_verify.py`, `validate_license`) -/

inductive ValidateOutcome
  | keyRequired          -- 422 "license_key is required"
  | notFound             -- 404
  | revoked              -- 403 status "revoked"
  | expired              -- 403 status "expired"
  | appMismatch          -- 403 status "app_mismatch"
  | requiresDevice       -- 422 status "requires_device"
  | active               -- 200 status "active"
  | canBind              -- 200 status "can_bind"
  | deviceLimitReached   -- 403 status "device_limit_reached"
  deriving Repr, DecidableEq

def validate_license (store : LicenseStore) (license_key : String)
    (device_id app_id : Option String) (now : Int) :
    ValidateOutcome × LicenseStore :=
  let lk := pyStrip license_key
  if lk = "" then (.keyRequired, store)
  else
    match store.find? (fun L => L.license_key = lk) with
    | none => (.notFound, store)
    | some lic =>
      if lic.status = .revoked then (.revoked, store)
      else if isExpired lic now then
        (.expired, updateByKey store lk (fun L => { L with status := .expired }))
      else if appMismatch lic app_id then (.appMismatch, store)
      else if lic.is_bound then
        if ¬ strPresent device_id then (.requiresDevice, store)
        else
          let did := device_id.getD ""
          let bound := lic.bound_devices
          match bound.find? (fun d => d.device_id = did) with
          | some _ =>
              (.active, updateByKey store lk (fun L => { L with last_verified := some now }))
          | none =>
              let maxd := lic.max_devices.getD 1
              if bound.length < maxd ∨ maxd = 0 then (.canBind, store)
              else (.deviceLimitReached, store)
      else
        (.active, updateByKey store lk (fun L => { L with last_verified := some now }))

/-! ## Activate endpoint (`license_verify.py`, `activate_license`) -/

inductive ActivateOutcome
  | keyRequired          -- 422
  | notFound             -- 404
  | revoked              -- 403
  | expired              -- 403
  | appMismatch          -- 403
  | requiresDevice       -- 422
  | active               -- 200 status "active"
  | deviceLimitReached   -- 403
  deriving Repr, DecidableEq

def activate_license (store : LicenseStore) (license_key device_id : String)
    (app_id : Option String) (meta : List (String × String)) (now : Int) :
    ActivateOutcome × LicenseStore :=
  let lk := pyStrip license_key
  if lk = "" then (.keyRequired, store)
  else
    match store.find? (fun L => L.license_key = lk) with
    | none => (.notFound, store)
    | some lic =>
      if lic.status = .revoked then (.revoked, store)
      else if isExpired lic now then
        (.expired, updateByKey store lk (fun L => { L with status := .expired }))
      else if appMismatch lic app_id then (.appMismatch, store)
      else if ¬ lic.is_bound then
        (.active, updateByKey store lk
          (fun L => { L with last_verified := some now, status := .active }))
      else if device_id = "" then (.requiresDevice, store)
      else
        let bound := lic.bound_devices
        match bound.find? (fun d => d.device_id = device_id) with
        | some _ =>
            -- device already bound: refresh bound_at / meta
            let newBound := bound.map (fun d =>
              if d.device_id = device_id then
                { d with bound_at := now, meta := if meta = [] then d.meta else meta }
              else d)
            (.active, updateByKey store lk (fun L =>
              { L with bound_devices := newBound, last_verified := some now,
                       status := .active }))
        | none =>
            let maxd := lic.max_devices.getD 1
            let current := bound.length
            if maxd = 1 ∧ current ≥ 1 then
              -- single slot: rebind override
              (.active, updateByKey store lk (fun L =>
                { L with bound_devices := [⟨device_id, now, none, meta⟩],
                         last_verified := some now, status := .active }))
            else if maxd = 0 ∨ current < maxd then
              (.active, updateByKey store lk (fun L =>
                { L with bound_devices := bound ++ [⟨device_id, now, none, meta⟩],
                         last_verified := some now, status := .active }))
            else (.deviceLimitReached, store)

/-! ## Public activate endpoint (`public_license_api.py`, `activate_license`) -/

inductive PubActivateResult
  | notFound                         -- 404
  | revoked                          -- 403
  | expired                          -- 403
  | maxDevices                       -- 403 "Max devices reached"
  | activated (device_count : Nat)   -- 200 status "activated"
  deriving Repr, DecidableEq

def public_activate_license (store : LicenseStore) (license_key device_id : String)
    (meta : List (String × String)) (now : Int) :
    PubActivateResult × LicenseStore :=
  match store.find? (fun L => L.license_key = license_key) with
  | none => (.notFound, store)
  | some L =>
    if L.status = .revoked then (.revoked, store)
    else if isExpired L now then (.expired, store)
    else
      let bound := L.bound_devices
      match bound.find? (fun d => d.device_id = device_id) with
      | some _ =>
          let newBound := bound.map (fun d =>
            if d.device_id = device_id then
              { d with last_seen := some now, meta := if meta = [] then d.meta else meta }
            else d)
          (.activated newBound.length, updateByKey store license_key (fun X =>
            { X with bound_devices := newBound, is_bound := true }))
      | none =>
          -- `if L.max_devices and len(bound) >= (L.max_devices or 1)`
          if (match L.max_devices with
              | some m => decide (m ≠ 0 ∧ bound.length ≥ m)
              | none => false) then (.maxDevices, store)
          else
            let newBound := bound ++ [⟨device_id, now, some now, meta⟩]
            (.activated newBound.length, updateByKey store license_key (fun X =>
              { X with bound_devices := newBound, is_bound := true }))

/-! ## Admin renew / revoke (`license_bank.py`) -/

inductive RenewResult
  | notFound
  | renewed (new_expiry : Int)
  deriving Repr, DecidableEq

/-- `renew_license(license_id, extend_days)`:
`base = L.expires_at or datetime.utcnow(); new_expiry = base + timedelta(days=extend_days);
L.expires_at = new_expiry; L.status = LicenseStatus.active`. -/
def renew_license (store : LicenseStore) (license_id : Nat) (extend_days now : Int) :
    RenewResult × LicenseStore :=
  match store.find? (fun L => L.id = license_id) with
  | none => (.notFound, store)
  | some L =>
      let base := L.expires_at.getD now
      let newExpiry := base + extend_days * 86400
      (.renewed newExpiry, updateById store license_id (fun X =>
        { X with expires_at := some newExpiry, status := .active }))

inductive RevokeResult
  | notFound
  | revoked
  deriving Repr, DecidableEq

/-- `revoke_license(license_id, reason)`: sets status to revoked. -/
def revoke_license (store : LicenseStore) (license_id : Nat) :
    RevokeResult × LicenseStore :=
  match store.find? (fun L => L.id = license_id) with
  | none => (.notFound, store)
  | some _ =>
      (.revoked, updateById store license_id (fun X => { X with status := .revoked }))

/-! ## Idempotent issuance (`internal_orders.py`, `create_order`)

`_make_key()` draws random keys; the randomness is modelled by the `keygen`
stream of candidate keys (attempt number ↦ candidate). -/

structure OrderIn where
  order_id : String
  email : String
  name : String
  product : String
  amount : Int
  currency : String
  days : Option Int
  deriving Repr, DecidableEq

inductive IssueResult
  | alreadyIssued (order_id : Option String) (license_key : String) (idempotent : String)
  | issued (license_key : String)    -- status "ok"
  | createFailed                     -- 500 "Failed to create license"
  deriving Repr, DecidableEq

/-- Next auto-increment primary key. -/
def nextId (store : LicenseStore) : Nat :=
  store.foldr (fun L m => max L.id m) 0 + 1

/-- The key-collision loop:
`while db.query(...).first() and tries < 5: license_key = _make_key(); tries += 1`.
The `fuel` argument only structures the recursion; starting it at 5 makes the
`tries < 5` bound the binding one. -/
def pickKeyAux (store : LicenseStore) (keygen : Nat → String) :
    String → Nat → Nat → String
  | key, _, 0 => key
  | key, tries, fuel + 1 =>
      if store.any (fun L => L.license_key = key) ∧ tries < 5 then
        pickKeyAux store keygen (keygen (tries + 1)) (tries + 1) fuel
      else key

def create_order (store : LicenseStore) (order : OrderIn) (keygen : Nat → String)
    (now : Int) : IssueResult × LicenseStore :=
  match store.find? (fun L => L.order_id = some order.order_id) with
  | some existing =>
      (.alreadyIssued existing.order_id existing.license_key "order_id", store)
  | none =>
    match store.find? (fun L =>
        L.user_email = order.email ∧ L.app_id = order.product ∧
        L.status ≠ .revoked) with
    | some e2 => (.alreadyIssued e2.order_id e2.license_key "email+product", store)
    | none =>
        -- `days = order.days or 365 * 4`
        let days : Int := match order.days with
          | some d => if d = 0 then 365 * 4 else d
          | none => 365 * 4
        let expires := now + days * 86400
        let key := pickKeyAux store keygen (keygen 0) 0 5
        -- commit: the unique constraint on license_key rejects a duplicate
        if store.any (fun L => L.license_key = key) then (.createFailed, store)
        else
          let L : License :=
            { id := nextId store, license_key := key, user_email := order.email,
              app_id := order.product, status := .active, generated_at := now,
              expires_at := some expires, last_verified := none,
              order_id := some order.order_id, payment_reference := none,
              amount := some order.amount, currency := some order.currency,
              is_bound := false, max_devices := some 1, bound_devices := [],
              meta := [] }
          (.issued key, store ++ [L])

/-! ## Issuance with retry (`license.py`, `create_order`)

Concurrency is modelled by `other`: rows committed by a concurrent writer
after this call's idempotency lookups but before its first commit.  Lookups
and the first collision pre-check see `store`; commits (where the unique
constraint fires as `IntegrityError`) and later pre-checks see
`store ++ other`. -/

structure OrderPayload where
  order_id : Option String
  email : String
  product : String
  payment_reference : Option String
  amount : Option Int
  currency : Option String
  deriving Repr, DecidableEq

inductive IssueResult2
  | alreadyIssued (license_key : String)   -- status "already_issued"
  | issued (license_key : String)          -- status "issued"
  | keyspaceExhausted                      -- 500 "Unable to generate unique license key"
  deriving Repr, DecidableEq

/-- One row built by `license.py` (model defaults from `license_model.py`
for the fields the constructor leaves unset). -/
def newApiLicense (store : LicenseStore) (payload : OrderPayload)
    (candidate : String) (now : Int) : License :=
  { id := nextId store, license_key := candidate, user_email := payload.email,
    app_id := payload.product, status := .active, generated_at := now,
    expires_at := some (now + 365 * 86400), last_verified := none,
    order_id := payload.order_id, payment_reference := payload.payment_reference,
    amount := payload.amount, currency := payload.currency, is_bound := false,
    max_devices := some 1, bound_devices := [], meta := [] }

/-- The `for gen_attempt in range(8)` loop.  On `IntegrityError` the inner
db-retry loop rolls back and `break`s, so each generation attempt commits at
most once; the loop then moves on to a fresh candidate. -/
def genAttempts (store other : LicenseStore) (payload : OrderPayload)
    (keygen : Nat → String) (now : Int) : Nat → Nat → Option (String × LicenseStore)
  | _, 0 => none
  | attempt, fuel + 1 =>
      let candidate := keygen attempt
      let preVisible := if attempt = 0 then store else store ++ other
      if preVisible.any (fun L => L.license_key = candidate) then
        genAttempts store other payload keygen now (attempt + 1) fuel
      else if (store ++ other).any (fun L => L.license_key = candidate) then
        -- commit hits the unique constraint: IntegrityError, rollback, retry
        genAttempts store other payload keygen now (attempt + 1) fuel
      else
        some (candidate, store ++ other ++ [newApiLicense store payload candidate now])

def create_order_api (store other : LicenseStore) (payload : OrderPayload)
    (keygen : Nat → String) (now : Int) : IssueResult2 × LicenseStore :=
  let byOrder := match payload.order_id with
    | some oid => store.find? (fun L => L.order_id = some oid)
    | none => none
  let existing := byOrder <|> store.find? (fun L =>
    L.user_email = payload.email ∧ L.app_id = payload.product ∧
    L.status = .active)
  match existing with
  | some L => (.alreadyIssued L.license_key, store ++ other)
  | none =>
      match genAttempts store other payload keygen now 0 8 with
      | some (key, store') => (.issued key, store')
      | none => (.keyspaceExhausted, store ++ other)

/-! ## Request sequences (for replay-protection statements) -/

/-- One authenticated request: headers plus canonicalized material and the
wall-clock time at which `verify_request_signature` runs. -/
structure SignedRequest where
  headers : HmacHeaders
  method : String
  path : String
  body : String
  now : Int

/-- Thread the nonce store through a sequence of verifier calls. -/
def runRequests (secret : String) (tol : Int) (reqs : List SignedRequest)
    (store : NonceStore) : NonceStore :=
  reqs.foldl (fun st r =>
    (verify_request_signature secret tol r.headers r.method r.path r.body r.now st).2) store

/-! ## Derived observations on license stores -/

/-- Bound device ids of the license with the given key. -/
def boundIds (store : LicenseStore) (lk : String) : List String :=
  match store.find? (fun L => L.license_key = lk) with
  | some L => L.bound_devices.map (fun d => d.device_id)
  | none => []

/-- The spec invariant: the bound-device count never exceeds `max_devices`
unless `max_devices` is 0 (no constraint is expressible when the nullable
column is NULL). -/
def devInvariant (L : License) : Prop :=
  match L.max_devices with
  | some m => m = 0 ∨ L.bound_devices.length ≤ m
  | none => True

/-- License key carried by an issuance result. -/
def issueKey : IssueResult → Option String
  | .alreadyIssued _ k _ => some k
  | .issued k => some k
  | .createFailed => none

/-! ## Concrete scenario data -/

def scenarioKey : String := "SOL-AAAA-BBBB-CCCC-12"

/-- The spec's concrete-scenario license: `maxDevices = 1`, empty bound list.
`bound` selects whether device binding is enforced (`is_bound`). -/
def scenarioLicense (bound : Bool) : License :=
  { id := 1, license_key := scenarioKey, user_email := "user@example.com",
    app_id := "app-1", status := .active, generated_at := 0, expires_at := none,
    last_verified := none, order_id := none, payment_reference := none,
    amount := none, currency := some "USD", is_bound := bound,
    max_devices := some 1, bound_devices := [], meta := [] }

def c1Step1 := activate_license [scenarioLicense true] scenarioKey "DEV-1" none [] 100
def c1Step2 := activate_license c1Step1.2 scenarioKey "DEV-2" none [] 200
def c1Step3 := validate_license c1Step2.2 scenarioKey (some "DEV-1") none 300
def c1Step4 := validate_license c1Step3.2 scenarioKey (some "DEV-2") none 400

/-- A stored revoked license (id 1). -/
def revokedDemo : License := { scenarioLicense true with status := .revoked }

/-- A stored license whose expiry (epoch 0) lies in the past. -/
def pastExpiryDemo : License := { scenarioLicense true with expires_at := some 0 }

/-- Deterministic candidate-key stream standing in for `_make_key()` /
`generate_license_key()`. -/
def seqKeygen : Nat → String := fun i => "SOL-K" ++ toString i

/-- A candidate-key stream that always returns the same key. -/
def constKeygen : Nat → String := fun _ => "SOL-C0"

def demoOrder : OrderIn :=
  { order_id := "ORD-1", email := "buyer@example.com", name := "Buyer",
    product := "app-1", amount := 49, currency := "USD", days := none }

/-- The row a concurrent writer committed for the same order (key `SOL-K0`). -/
def c6Other : License :=
  { scenarioLicense false with
      id := 7
      license_key := "SOL-K0"
      user_email := "buyer@example.com"
      order_id := some "ORD-1" }

/-- A pre-existing row that collides with every `constKeygen` candidate but
matches neither the order-id nor the email+product lookups of the demo
order/payload. -/
def blockRow : License :=
  { scenarioLicense false with
      id := 9
      license_key := "SOL-C0"
      user_email := "other@example.com"
      app_id := "other-app"
      order_id := some "ORD-0" }

def c6Payload : OrderPayload :=
  { order_id := some "ORD-1", email := "buyer@example.com", product := "app-1",
    payment_reference := none, amount := some 49, currency := some "USD" }

end Solunex

namespace Solunex

/-! # Supporting lemmas -/

theorem SHA256.sha256_length (msg : List Nat) : (sha256 msg).length = 32 := by
  simp [sha256, wordBytes]

theorem hmacSha256_length (key msg : List Nat) : (hmacSha256 key msg).length = 32 := by
  simp [hmacSha256, SHA256.sha256_length]

theorem hexChars_length (bs : List Nat) : (hexChars bs).length = 2 * bs.length := by
  induction bs with
  | nil => simp [hexChars]
  | cons b bs ih => simp [hexChars, ih]; omega

theorem toLower_hexDigitChar : ∀ n < 16, (hexDigitChar n).toLower = hexDigitChar n := by
  decide

theorem map_toLower_hexChars (bs : List Nat) :
    (hexChars bs).map Char.toLower = hexChars bs := by
  induction bs with
  | nil => simp [hexChars]
  | cons b bs ih =>
      simp only [hexChars, List.map_cons, ih]
      rw [toLower_hexDigitChar _ (by omega), toLower_hexDigitChar _ (by omega)]

theorem pyLower_hexEncode (bs : List Nat) : pyLower (hexEncode bs) = hexEncode bs := by
  simp [pyLower, hexEncode, map_toLower_hexChars]

theorem hexEncode_length (bs : List Nat) : (hexEncode bs).length = 2 * bs.length := by
  simp [hexEncode, String.length, hexChars_length]

theorem pyLower_length (s : String) : (pyLower s).length = s.length := by
  cases s with
  | mk data => simp [pyLower, String.length]

theorem compute_signature_length (secret ts n m p b : String) :
    (compute_signature secret ts n m p b).length = 64 := by
  unfold compute_signature
  rw [hexEncode_length, hmacSha256_length]

theorem pyLower_compute_signature (secret ts n m p b : String) :
    pyLower (compute_signature secret ts n m p b) = compute_signature secret ts n m p b := by
  unfold compute_signature
  exact pyLower_hexEncode _

theorem compute_signature_ne_of_length {s : String} (hs : s.length ≠ 64)
    (secret ts n m p b : String) : s ≠ compute_signature secret ts n m p b := by
  intro h
  exact hs (h ▸ compute_signature_length secret ts n m p b)

/-- A valid presented signature is non-empty. -/
theorem sig_ne_empty_of_valid {sig secret ts n m p b : String}
    (h : pyLower sig = compute_signature secret ts n m p b) : sig ≠ "" := by
  intro hs
  subst hs
  exact compute_signature_ne_of_length (by simp [pyLower_length]) secret ts n m p b h

/-! ## Nonce-store lemmas -/

theorem storeNonceMemory_fresh (store : NonceStore) (n : String) (ttl now : Int)
    (hfresh : ∀ e, (n, e) ∈ store → e ≤ now) :
    storeNonceMemory store n ttl now =
      (true, store.filter (fun q => ¬ q.2 ≤ now) ++ [(n, now + ttl)]) := by
  unfold storeNonceMemory
  rw [if_neg]
  intro hany
  obtain ⟨q, hq, hq1⟩ := List.any_eq_true.mp hany
  obtain ⟨hqs, hqe⟩ := List.mem_filter.mp hq
  have : (n, q.2) ∈ store := by
    have : q = (n, q.2) := by
      cases q
      simp at hq1
      simp [hq1]
    exact this ▸ hqs
  have := hfresh q.2 this
  simp at hqe
  omega

theorem storeNonceMemory_replayed (store : NonceStore) (n : String) (ttl now e : Int)
    (hmem : (n, e) ∈ store) (hlt : now < e) :
    (storeNonceMemory store n ttl now).1 = false := by
  unfold storeNonceMemory
  rw [if_pos]
  exact List.any_eq_true.mpr ⟨(n, e), List.mem_filter.mpr ⟨hmem, by simp; omega⟩, by simp⟩

theorem storeNonceMemory_preserves (store : NonceStore) (n2 n : String)
    (ttl now e : Int) (hmem : (n, e) ∈ store) (hlt : now < e) :
    (n, e) ∈ (storeNonceMemory store n2 ttl now).2 := by
  unfold storeNonceMemory
  have hf : (n, e) ∈ store.filter (fun q => ¬ q.2 ≤ now) :=
    List.mem_filter.mpr ⟨hmem, by simp; omega⟩
  dsimp only
  split
  · exact hf
  · exact List.mem_append.mpr (Or.inl hf)

/-! ## Reductions of `verify_request_signature` past its gates -/

/-- **C9** — Every request whose parsed timestamp differs from the current
time by more than the configured tolerance (`HMAC_TIMESTAMP_TOLERANCE or 15`,
i.e. 15 by default and whenever the configured value is falsy) is rejected
with the timestamp-out-of-window error, for an arbitrary supplied signature
(so regardless of its validity), and the nonce store is returned unchanged —
the nonce is not reserved and no expected signature enters the outcome. -/
theorem timestamp_window_rejection (secret : String) (tol : Int) (sig ts n m p b : String)
    (now t : Int) (store : NonceStore)
    (hsec : secret ≠ "") (hsig : sig ≠ "") (hts : ts ≠ "") (hn : n ≠ "")
    (hparse : pyInt? ts = some t)
    (hwin : |now - t| > if tol = 0 then 15 else tol) :
    verify_request_signature secret tol ⟨some sig, some ts, some n⟩ m p b now store =
      (.timestampOutOfWindow, store) := by
  unfold verify_request_signature
  rw [if_neg hsec, if_neg (by simp [strPresent, hsig, hts, hn])]
  dsimp only [Option.getD_some]
  simp only [hparse]
  rw [if_pos hwin]

theorem verify_fresh_nonce (secret : String) (tol : Int) (sig ts n m p b : String)
    (now t : Int) (store : NonceStore)
    (hsec : secret ≠ "") (hsig : sig ≠ "") (hts : ts ≠ "") (hn : n ≠ "")
    (hparse : pyInt? ts = some t)
    (hwin : ¬ |now - t| > (if tol = 0 then 15 else tol))
    (hfresh : ∀ e, (n, e) ∈ store → e ≤ now) :
    verify_request_signature secret tol ⟨some sig, some ts, some n⟩ m p b now store =
      ((if compute_signature secret ts n m p b = pyLower sig then .ok
        else .invalidSignature),
       store.filter (fun q => ¬ q.2 ≤ now) ++ [(n, now + HMAC_NONCE_TTL)]) := by
  unfold verify_request_signature
  rw [if_neg hsec, if_neg (by simp [strPresent, hsig, hts, hn])]
  dsimp only [Option.getD_some]
  simp only [hparse]
  rw [if_neg hwin]
  unfold validateAndStoreNonce
  rw [storeNonceMemory_fresh store n _ now hfresh]
  simp only [HMAC_NONCE_TTL]
  norm_num
  split <;> simp_all

theorem verify_replayed_nonce (secret : String) (tol : Int) (sig ts n m p b : String)
    (now t e : Int) (store : NonceStore)
    (hsec : secret ≠ "") (hsig : sig ≠ "") (hts : ts ≠ "") (hn : n ≠ "")
    (hparse : pyInt? ts = some t)
    (hwin : ¬ |now - t| > (if tol = 0 then 15 else tol))
    (hmem : (n, e) ∈ store) (hlt : now < e) :
    (verify_request_signature secret tol ⟨some sig, some ts, some n⟩ m p b now store).1 =
      .nonceReplayed := by
  unfold verify_request_signature
  rw [if_neg hsec, if_neg (by simp [strPresent, hsig, hts, hn])]
  dsimp only [Option.getD_some]
  simp only [hparse]
  rw [if_neg hwin]
  unfold validateAndStoreNonce
  have h1 := storeNonceMemory_replayed store n
    (if (HMAC_NONCE_TTL : Int) = 0 then 60 else HMAC_NONCE_TTL) now e hmem hlt
  rcases hv : storeNonceMemory store n
      (if (HMAC_NONCE_TTL : Int) = 0 then 60 else HMAC_NONCE_TTL) now with ⟨fr, st⟩
  rw [hv] at h1
  simp only [hv]
  simp at h1
  subst h1
  simp

/-- Every single call of the verifier keeps an unexpired foreign nonce entry. -/
theorem verify_preserves_nonce (secret : String) (tol : Int) (hs : HmacHeaders)
    (m p b : String) (now : Int) (store : NonceStore) (n : String) (e : Int)
    (hmem : (n, e) ∈ store) (hlt : now < e) :
    (n, e) ∈ (verify_request_signature secret tol hs m p b now store).2 := by
  unfold verify_request_signature
  by_cases h1 : secret = ""
  · rw [if_pos h1]; exact hmem
  rw [if_neg h1]
  by_cases h2 : ¬ (strPresent hs.signature ∧ strPresent hs.timestamp ∧ strPresent hs.nonce)
  · rw [if_pos h2]; exact hmem
  rw [if_neg h2]
  dsimp only
  rcases hk : pyInt? (hs.timestamp.getD "") with _ | tsInt
  · simp only [hk]; exact hmem
  simp only [hk]
  by_cases h3 : |now - tsInt| > (if tol = 0 then 15 else tol)
  · rw [if_pos h3]; exact hmem
  rw [if_neg h3]
  have hp : (n, e) ∈ (validateAndStoreNonce store (hs.nonce.getD "") now).2 := by
    unfold validateAndStoreNonce
    exact storeNonceMemory_preserves store (hs.nonce.getD "") n _ now e hmem hlt
  rcases hv : validateAndStoreNonce store (hs.nonce.getD "") now with ⟨fr, st⟩
  rw [hv] at hp
  simp only [hv]
  split
  · exact hp
  · split <;> exact hp


theorem compute_signature_ne_empty (secret ts n m p b : String) :
    compute_signature secret ts n m p b ≠ "" := by
  intro h
  have := compute_signature_length secret ts n m p b
  rw [h] at this
  simp [String.length] at this

theorem compute_signature_method_case (secret ts n m m' p b : String)
    (hm : pyUpper m' = pyUpper m) :
    compute_signature secret ts n m' p b = compute_signature secret ts n m p b := by
  unfold compute_signature
  rw [hm]

/-- An unexpired nonce entry survives any sequence of verifier calls made
before it expires. -/
theorem runRequests_preserves_nonce (secret : String) (tol : Int)
    (reqs : List SignedRequest) (store : NonceStore) (n : String) (e : Int)
    (hmem : (n, e) ∈ store) (hreqs : ∀ r ∈ reqs, r.now < e) :
    (n, e) ∈ runRequests secret tol reqs store := by
  induction reqs generalizing store with
  | nil => exact hmem
  | cons r rs ih =>
      simp only [runRequests, List.foldl_cons]
      exact ih _
        (verify_preserves_nonce secret tol r.headers r.method r.path r.body r.now store n e
          hmem (hreqs r (List.mem_cons_self r rs)))
        (fun q hq => hreqs q (List.mem_cons_of_mem r hq))

/-- **C9** witness: at tolerance 15, a request stamped 100 arriving at time 400
is rejected as out-of-window with the store untouched. -/
theorem timestamp_window_rejection_witness :
    ("sec" : String) ≠ "" ∧ ("00" : String) ≠ "" ∧ ("100" : String) ≠ "" ∧
    ("n1" : String) ≠ "" ∧ pyInt? "100" = some 100 ∧
    (|(400 : Int) - 100| > if (15 : Int) = 0 then 15 else 15) ∧
    verify_request_signature "sec" 15 ⟨some "00", some "100", some "n1"⟩ "POST" "/p" "" 400 []
      = (.timestampOutOfWindow, []) :=
  ⟨by decide, by decide, by decide, by decide, by decide, by decide,
   timestamp_window_rejection "sec" 15 "00" "100" "n1" "POST" "/p" "" 400 100 []
     (by decide) (by decide) (by decide) (by decide) (by decide) (by decide)⟩

/-- **C7** (amended) — With the verifier's gates satisfied (secret configured,
headers present, timestamp parsed and within tolerance, nonce fresh):
(1) presenting exactly the signature `compute_signature` produces over the six
inputs verifies as `ok` (round-trip); (2) any presented signature whose
lower-casing differs from the recomputed signature is rejected as
`invalidSignature`; (3) the computed signature depends on the method only
through its upper-casing, so an input change that only alters the method's
letter case cannot make verification fail. -/
theorem signature_roundtrip_and_mismatch (secret : String) (tol : Int)
    (ts n m p b : String) (now t : Int) (store : NonceStore)
    (hsec : secret ≠ "") (hts : ts ≠ "") (hn : n ≠ "")
    (hparse : pyInt? ts = some t)
    (hwin : ¬ |now - t| > (if tol = 0 then 15 else tol))
    (hfresh : ∀ e, (n, e) ∈ store → e ≤ now) :
    (verify_request_signature secret tol
        ⟨some (compute_signature secret ts n m p b), some ts, some n⟩ m p b now store).1
      = .ok ∧
    (∀ sig, sig ≠ "" → pyLower sig ≠ compute_signature secret ts n m p b →
      (verify_request_signature secret tol
          ⟨some sig, some ts, some n⟩ m p b now store).1 = .invalidSignature) ∧
    (∀ m', pyUpper m' = pyUpper m →
      compute_signature secret ts n m' p b = compute_signature secret ts n m p b) := by
  refine ⟨?_, ?_, ?_⟩
  · rw [verify_fresh_nonce secret tol _ ts n m p b now t store hsec
      (compute_signature_ne_empty secret ts n m p b) hts hn hparse hwin hfresh]
    rw [pyLower_compute_signature]
    simp
  · intro sig hs hmm
    rw [verify_fresh_nonce secret tol sig ts n m p b now t store hsec hs hts hn hparse hwin hfresh]
    rw [if_neg (fun h => hmm h.symm)]
  · intro m' hm
    exact compute_signature_method_case secret ts n m m' p b hm

/-- **C7** counterexample to the claim as stated: change one byte of the
`method` input from `"get"` to `"Get"` between signing and verifying; the
claim demands that verification fail, but it still succeeds, because
`compute_signature` upper-cases the method before hashing. -/
theorem signature_method_case_counterexample :
    (verify_request_signature "k" 15
      ⟨some (compute_signature "k" "100" "nonce1" "get" "/x" "bd"), some "100", some "nonce1"⟩
      "Get" "/x" "bd" 100 []).1 = .ok := by
  rw [verify_fresh_nonce "k" 15 _ "100" "nonce1" "Get" "/x" "bd" 100 100 []
      (by decide) (compute_signature_ne_empty "k" "100" "nonce1" "get" "/x" "bd")
      (by decide) (by decide) (by decide) (by decide) (by simp)]
  rw [pyLower_compute_signature]
  rw [compute_signature_method_case "k" "100" "nonce1" "Get" "get" "/x" "bd" (by decide)]
  simp

/-- **C7** witness: a concrete instantiation of the amended theorem; the
mismatch part is applied at the presented signature `"00"` and the
case-invariance part at the method rewritten from `"POST"` to `"post"`. -/
theorem signature_roundtrip_and_mismatch_witness :
    (verify_request_signature "k" 15
        ⟨some (compute_signature "k" "100" "n1" "POST" "/p" "b"), some "100", some "n1"⟩
        "POST" "/p" "b" 100 []).1 = .ok ∧
    (verify_request_signature "k" 15
        ⟨some "00", some "100", some "n1"⟩ "POST" "/p" "b" 100 []).1 = .invalidSignature ∧
    compute_signature "k" "100" "n1" "post" "/p" "b"
      = compute_signature "k" "100" "n1" "POST" "/p" "b" := by
  have h := signature_roundtrip_and_mismatch "k" 15 "100" "n1" "POST" "/p" "b" 100 100 []
    (by decide) (by decide) (by decide) (by decide) (by decide) (by simp)
  exact ⟨h.1,
    h.2.1 "00" (by decide)
      (compute_signature_ne_of_length (by rw [pyLower_length]; decide) "k" "100" "n1" "POST" "/p" "b"),
    h.2.2 "post" (by decide)⟩

/-- **C5** — A nonce is accepted at most once within its TTL window: a first
call with the verifier's gates satisfied, a fresh nonce and a valid signature
succeeds, and any later call presenting the same nonce before the nonce's
expiry (`now1 + HMAC_NONCE_TTL`) — after arbitrary interleaved verifier
traffic that also stays inside the window — is rejected as a replayed nonce. -/
theorem nonce_single_use (secret : String) (tol : Int)
    (sig1 ts1 n m1 p1 b1 : String) (now1 t1 : Int) (store : NonceStore)
    (reqs : List SignedRequest) (sig2 ts2 m2 p2 b2 : String) (now2 t2 : Int)
    (hsec : secret ≠ "") (hts1 : ts1 ≠ "") (hn : n ≠ "")
    (hparse1 : pyInt? ts1 = some t1)
    (hwin1 : ¬ |now1 - t1| > (if tol = 0 then 15 else tol))
    (hfresh : ∀ e, (n, e) ∈ store → e ≤ now1)
    (hvalid : pyLower sig1 = compute_signature secret ts1 n m1 p1 b1)
    (hreqs : ∀ r ∈ reqs, r.now < now1 + HMAC_NONCE_TTL)
    (hsig2 : sig2 ≠ "") (hts2 : ts2 ≠ "")
    (hparse2 : pyInt? ts2 = some t2)
    (hwin2 : ¬ |now2 - t2| > (if tol = 0 then 15 else tol))
    (hnow2 : now2 < now1 + HMAC_NONCE_TTL) :
    (verify_request_signature secret tol ⟨some sig1, some ts1, some n⟩ m1 p1 b1 now1 store).1
      = .ok ∧
    (verify_request_signature secret tol ⟨some sig2, some ts2, some n⟩ m2 p2 b2 now2
        (runRequests secret tol reqs
          (verify_request_signature secret tol ⟨some sig1, some ts1, some n⟩
            m1 p1 b1 now1 store).2)).1
      = .nonceReplayed := by
  have hsig1 : sig1 ≠ "" := sig_ne_empty_of_valid hvalid
  have h1 := verify_fresh_nonce secret tol sig1 ts1 n m1 p1 b1 now1 t1 store
    hsec hsig1 hts1 hn hparse1 hwin1 hfresh
  constructor
  · rw [h1]
    dsimp only
    rw [if_pos hvalid.symm]
  · have hmem1 : (n, now1 + HMAC_NONCE_TTL) ∈
        (verify_request_signature secret tol ⟨some sig1, some ts1, some n⟩
          m1 p1 b1 now1 store).2 := by
      rw [h1]
      exact List.mem_append.mpr (Or.inr (by simp))
    have hmem2 := runRequests_preserves_nonce secret tol reqs _ n
      (now1 + HMAC_NONCE_TTL) hmem1 hreqs
    exact verify_replayed_nonce secret tol sig2 ts2 n m2 p2 b2 now2 t2
      (now1 + HMAC_NONCE_TTL) _ hsec hsig2 hts2 hn hparse2 hwin2 hmem2 hnow2

/-- **C5** witness: concrete first call at time 100 with the correctly
computed signature succeeds; a second call at time 110 (inside the 60-second
TTL) presenting the same nonce is rejected as replayed. -/
theorem nonce_single_use_witness :
    (verify_request_signature "k" 15
        ⟨some (compute_signature "k" "100" "n1" "POST" "/p" ""), some "100", some "n1"⟩
        "POST" "/p" "" 100 []).1 = .ok ∧
    (verify_request_signature "k" 15 ⟨some "00", some "110", some "n1"⟩ "GET" "/q" "" 110
        (runRequests "k" 15 []
          (verify_request_signature "k" 15
            ⟨some (compute_signature "k" "100" "n1" "POST" "/p" ""), some "100", some "n1"⟩
            "POST" "/p" "" 100 []).2)).1
      = .nonceReplayed :=
  nonce_single_use "k" 15 (compute_signature "k" "100" "n1" "POST" "/p" "")
    "100" "n1" "POST" "/p" "" 100 100 [] [] "00" "110" "GET" "/q" "" 110 110
    (by decide) (by decide) (by decide) (by decide) (by decide) (by simp)
    (pyLower_compute_signature "k" "100" "n1" "POST" "/p" "")
    (by simp) (by decide) (by decide) (by decide) (by decide) (by decide)

/-- **C10** — When the verifier rejects a request solely because the
signature mismatches (headers present, timestamp in window, nonce fresh),
the nonce has nevertheless been recorded: the call returns
`invalidSignature`, the store now holds the nonce until `now1 +
HMAC_NONCE_TTL`, and a retry with the same nonce inside that window — with
any signature, including a correct one — is rejected as a replayed nonce. -/
theorem failed_signature_burns_nonce (secret : String) (tol : Int)
    (sig1 ts1 n m1 p1 b1 : String) (now1 t1 : Int) (store : NonceStore)
    (sig2 ts2 m2 p2 b2 : String) (now2 t2 : Int)
    (hsec : secret ≠ "") (hsig1 : sig1 ≠ "") (hts1 : ts1 ≠ "") (hn : n ≠ "")
    (hparse1 : pyInt? ts1 = some t1)
    (hwin1 : ¬ |now1 - t1| > (if tol = 0 then 15 else tol))
    (hfresh : ∀ e, (n, e) ∈ store → e ≤ now1)
    (hmismatch : pyLower sig1 ≠ compute_signature secret ts1 n m1 p1 b1)
    (hsig2 : sig2 ≠ "") (hts2 : ts2 ≠ "")
    (hparse2 : pyInt? ts2 = some t2)
    (hwin2 : ¬ |now2 - t2| > (if tol = 0 then 15 else tol))
    (hnow2 : now2 < now1 + HMAC_NONCE_TTL) :
    (verify_request_signature secret tol ⟨some sig1, some ts1, some n⟩ m1 p1 b1 now1 store).1
      = .invalidSignature ∧
    (n, now1 + HMAC_NONCE_TTL) ∈
      (verify_request_signature secret tol ⟨some sig1, some ts1, some n⟩ m1 p1 b1 now1 store).2 ∧
    (verify_request_signature secret tol ⟨some sig2, some ts2, some n⟩ m2 p2 b2 now2
        (verify_request_signature secret tol ⟨some sig1, some ts1, some n⟩
          m1 p1 b1 now1 store).2).1
      = .nonceReplayed := by
  have h1 := verify_fresh_nonce secret tol sig1 ts1 n m1 p1 b1 now1 t1 store
    hsec hsig1 hts1 hn hparse1 hwin1 hfresh
  have hmem1 : (n, now1 + HMAC_NONCE_TTL) ∈
      (verify_request_signature secret tol ⟨some sig1, some ts1, some n⟩
        m1 p1 b1 now1 store).2 := by
    rw [h1]
    exact List.mem_append.mpr (Or.inr (by simp))
  refine ⟨?_, hmem1, ?_⟩
  · rw [h1]
    dsimp only
    rw [if_neg (fun h => hmismatch h.symm)]
  · exact verify_replayed_nonce secret tol sig2 ts2 n m2 p2 b2 now2 t2
      (now1 + HMAC_NONCE_TTL) _ hsec hsig2 hts2 hn hparse2 hwin2 hmem1 hnow2

/-- **C10** witness: a first call at time 100 with the wrong signature `"00"`
burns nonce `n1`; a retry at time 110 presenting the *correct* signature for
its own material is still rejected as replayed. -/
theorem failed_signature_burns_nonce_witness :
    (verify_request_signature "k" 15 ⟨some "00", some "100", some "n1"⟩
        "POST" "/p" "" 100 []).1 = .invalidSignature ∧
    ("n1", (160 : Int)) ∈
      (verify_request_signature "k" 15 ⟨some "00", some "100", some "n1"⟩
        "POST" "/p" "" 100 []).2 ∧
    (verify_request_signature "k" 15
        ⟨some (compute_signature "k" "110" "n1" "POST" "/p" ""), some "110", some "n1"⟩
        "POST" "/p" "" 110
        (verify_request_signature "k" 15 ⟨some "00", some "100", some "n1"⟩
          "POST" "/p" "" 100 []).2).1
      = .nonceReplayed :=
  failed_signature_burns_nonce "k" 15 "00" "100" "n1" "POST" "/p" "" 100 100 []
    (compute_signature "k" "110" "n1" "POST" "/p" "") "110" "POST" "/p" "" 110 110
    (by decide) (by decide) (by decide) (by decide) (by decide) (by decide) (by simp)
    (compute_signature_ne_of_length (by rw [pyLower_length]; decide) "k" "100" "n1" "POST" "/p" "")
    (compute_signature_ne_empty "k" "110" "n1" "POST" "/p" "")
    (by decide) (by decide) (by decide) (by decide)

/-! ## License-store helper lemmas -/

theorem mem_updateById (store : LicenseStore) (lid : Nat) (f : License → License)
    (L' : License) (h : L' ∈ updateById store lid f) :
    ∃ L ∈ store, L' = if L.id = lid then f L else L := by
  rw [updateById] at h
  obtain ⟨L, hL, hEq⟩ := List.mem_map.mp h
  exact ⟨L, hL, hEq.symm⟩

theorem mem_updateByKey (store : LicenseStore) (k : String) (f : License → License)
    (L' : License) (h : L' ∈ updateByKey store k f) :
    ∃ L ∈ store, L' = if L.license_key = k then f L else L := by
  rw [updateByKey] at h
  obtain ⟨L, hL, hEq⟩ := List.mem_map.mp h
  exact ⟨L, hL, hEq.symm⟩

/-- `validate_license` on a revoked license returns the revoked outcome and
leaves the store untouched. -/
theorem validate_revoked_eq (store : LicenseStore) (lk : String)
    (did aid : Option String) (now : Int) (lic : License)
    (hk : pyStrip lk ≠ "")
    (hfind : store.find? (fun L => L.license_key = pyStrip lk) = some lic)
    (hrev : lic.status = .revoked) :
    validate_license store lk did aid now = (.revoked, store) := by
  unfold validate_license
  rw [if_neg hk]
  simp only [hfind]
  rw [if_pos hrev]

/-- `activate_license` on a revoked license returns the revoked outcome and
leaves the store untouched. -/
theorem activate_revoked_eq (store : LicenseStore) (lk dev : String)
    (aid : Option String) (meta : List (String × String)) (now : Int) (lic : License)
    (hk : pyStrip lk ≠ "")
    (hfind : store.find? (fun L => L.license_key = pyStrip lk) = some lic)
    (hrev : lic.status = .revoked) :
    activate_license store lk dev aid meta now = (.revoked, store) := by
  unfold activate_license
  rw [if_neg hk]
  simp only [hfind]
  rw [if_pos hrev]

/-- **C2** (amended) — For a stored revoked license, `validate`, `activate`
and `revoke` never change its status away from revoked: validate and activate
return the revoked outcome with the store unchanged, and revoke rewrites the
row's status to revoked.  `renew`, however, is the exception: it sets the
row's status to `active` unconditionally, so renewing a revoked license moves
its status away from revoked. -/
theorem revoked_preserved_except_renew (store : LicenseStore) (lk : String)
    (did aid : Option String) (dev : String) (meta : List (String × String))
    (now : Int) (lid : Nat) (days : Int) (lic licI : License)
    (hk : pyStrip lk ≠ "")
    (hfind : store.find? (fun L => L.license_key = pyStrip lk) = some lic)
    (hrev : lic.status = .revoked)
    (hfindI : store.find? (fun L => L.id = lid) = some licI)
    (hrevI : licI.status = .revoked) :
    validate_license store lk did aid now = (.revoked, store) ∧
    activate_license store lk dev aid meta now = (.revoked, store) ∧
    (∀ L' ∈ (revoke_license store lid).2, L'.id = lid → L'.status = .revoked) ∧
    (∀ L' ∈ (renew_license store lid days now).2, L'.id = lid → L'.status = .active) := by
  refine ⟨validate_revoked_eq store lk did aid now lic hk hfind hrev,
          activate_revoked_eq store lk dev aid meta now lic hk hfind hrev, ?_, ?_⟩
  · intro L' hL' hid
    unfold revoke_license at hL'
    simp only [hfindI] at hL'
    obtain ⟨L, _, hEq⟩ := mem_updateById store lid _ L' hL'
    by_cases hc : L.id = lid
    · rw [hEq, if_pos hc]
    · rw [hEq, if_neg hc] at hid ⊢
      exact absurd hid hc
  · intro L' hL' hid
    unfold renew_license at hL'
    simp only [hfindI] at hL'
    obtain ⟨L, _, hEq⟩ := mem_updateById store lid _ L' hL'
    by_cases hc : L.id = lid
    · rw [hEq, if_pos hc]
    · rw [hEq, if_neg hc] at hid ⊢
      exact absurd hid hc

/-- **C2** counterexample: renewing the stored revoked license flips its
status to `active`, so `renew` does change a revoked license's status away
from revoked, contradicting the claim as stated. -/
theorem renew_unrevokes_counterexample :
    revokedDemo.status = .revoked ∧
    ((renew_license [revokedDemo] 1 365 1000).2.map (fun L => L.status)) = [.active] := by
  decide

/-- **C2** witness: concrete instantiation — validate/activate/revoke leave
the revoked license revoked; renew turns it active. -/
theorem revoked_preserved_except_renew_witness :
    validate_license [revokedDemo] scenarioKey (some "DEV-1") none 50
      = (.revoked, [revokedDemo]) ∧
    activate_license [revokedDemo] scenarioKey "DEV-1" none [] 50
      = (.revoked, [revokedDemo]) ∧
    ((revoke_license [revokedDemo] 1).2.map (fun L => L.status)) = [.revoked] ∧
    ((renew_license [revokedDemo] 1 365 50).2.map (fun L => L.status)) = [.active] := by
  have h := revoked_preserved_except_renew [revokedDemo] scenarioKey
    (some "DEV-1") none "DEV-1" [] 50 1 365 revokedDemo revokedDemo
    (by decide) (by decide) (by decide) (by decide) (by decide)
  exact ⟨h.1, h.2.1, by decide, by decide⟩

/-- **C4** (amended) — `renew` sets the new expiry to
`currentExpiry + extendDays` whenever an expiry is stored — even one in the
past — and to `now + extendDays` only when no expiry is stored
(`base = L.expires_at or now`); it sets the status to `active`
unconditionally, which in particular clears `expired` back to `active`. -/
theorem renew_expiry_formula (store : LicenseStore) (lid : Nat) (days now : Int)
    (lic : License) (hfind : store.find? (fun L => L.id = lid) = some lic) :
    renew_license store lid days now =
      (.renewed (lic.expires_at.getD now + days * 86400),
       updateById store lid (fun X =>
         { X with expires_at := some (lic.expires_at.getD now + days * 86400),
                  status := .active })) ∧
    (∀ L' ∈ (renew_license store lid days now).2, L'.id = lid →
       L'.status = .active ∧
       L'.expires_at = some (lic.expires_at.getD now + days * 86400)) := by
  constructor
  · unfold renew_license
    simp only [hfind]
  · intro L' hL' hid
    unfold renew_license at hL'
    simp only [hfind] at hL'
    obtain ⟨L, _, hEq⟩ := mem_updateById store lid _ L' hL'
    by_cases hc : L.id = lid
    · rw [hEq, if_pos hc]
      exact ⟨rfl, rfl⟩
    · rw [hEq, if_neg hc] at hid
      exact absurd hid hc

/-- **C4** counterexample: the stored license expired at epoch 0; renewing by
1 day at time 1000000 yields expiry 86400 (`pastExpiry + 1 day`, still in the
past), not `max(pastExpiry, now) + 1 day = 1086400` as the claim states. -/
theorem renew_expiry_not_max_counterexample :
    pastExpiryDemo.expires_at = some 0 ∧
    (renew_license [pastExpiryDemo] 1 1 1000000).1 = .renewed 86400 ∧
    (86400 : Int) ≠ max (0 : Int) 1000000 + 1 * 86400 := by
  refine ⟨by decide, by decide, by decide⟩

/-- **C4** witness: the amended formula applied to the concrete past-expiry
license. -/
theorem renew_expiry_formula_witness :
    renew_license [pastExpiryDemo] 1 1 1000000 =
      (.renewed (pastExpiryDemo.expires_at.getD 1000000 + 1 * 86400),
       updateById [pastExpiryDemo] 1 (fun X =>
         { X with expires_at := some (pastExpiryDemo.expires_at.getD 1000000 + 1 * 86400),
                  status := .active })) :=
  (renew_expiry_formula [pastExpiryDemo] 1 1 1000000 pastExpiryDemo (by decide)).1

/-- **C1** (amended) — The concrete single-seat scenario against
`license_verify.py`, starting from the stored license with `maxDevices = 1`,
device binding enforced (`is_bound` set) and an empty bound list:
activate DEV-1 → active, bound `[DEV-1]`; activate DEV-2 → active, bound
`[DEV-2]` (single-seat override); validate DEV-1 → `device_limit_reached`
(slot occupied by DEV-2, `len(bound) < maxDevices` fails); validate DEV-2 →
active. -/
theorem single_seat_scenario_trace :
    c1Step1.1 = .active ∧ boundIds c1Step1.2 scenarioKey = ["DEV-1"] ∧
    c1Step2.1 = .active ∧ boundIds c1Step2.2 scenarioKey = ["DEV-2"] ∧
    c1Step3.1 = .deviceLimitReached ∧
    c1Step4.1 = .active := by
  decide

/-- **C1** counterexample to the claim as stated: the third call of the
claimed sequence returns `device_limit_reached`, not `CanBind`; and under the
stored default `is_bound = false`, the first activate does not bind DEV-1 at
all (the bound list stays empty), so the claimed `bound=[DEV-1]` also fails
on that reading. -/
theorem single_seat_scenario_canBind_refuted :
    c1Step3.1 ≠ .canBind ∧
    (activate_license [scenarioLicense false] scenarioKey "DEV-1" none [] 100).1 = .active ∧
    boundIds (activate_license [scenarioLicense false] scenarioKey "DEV-1" none [] 100).2
      scenarioKey = [] := by
  decide

/-! ## Issuance lemmas -/

theorem find?_append_none {α} (p : α → Bool) (l1 l2 : List α) (h : l1.find? p = none) :
    (l1 ++ l2).find? p = l2.find? p := by
  induction l1 with
  | nil => rfl
  | cons a l ih =>
      by_cases hpa : p a = true
      · rw [List.find?_cons_of_pos _ hpa] at h
        exact absurd h (by simp)
      · rw [List.find?_cons_of_neg _ hpa] at h
        rw [List.cons_append, List.find?_cons_of_neg _ hpa]
        exact ih h

/-- The row inserted by `internal_orders.create_order`. -/
def freshOrderLicense (store : LicenseStore) (order : OrderIn) (key : String)
    (now : Int) : License :=
  { id := nextId store, license_key := key, user_email := order.email,
    app_id := order.product, status := .active, generated_at := now,
    expires_at := some (now + (match order.days with
      | some d => if d = 0 then 365 * 4 else d
      | none => 365 * 4) * 86400), last_verified := none,
    order_id := some order.order_id, payment_reference := none,
    amount := some order.amount, currency := some order.currency,
    is_bound := false, max_devices := some 1, bound_devices := [], meta := [] }

/-- Case analysis of `create_order` on the pre-state. -/
theorem create_order_cases (store : LicenseStore) (order : OrderIn)
    (keygen : Nat → String) (now : Int) :
    (∃ L1, store.find? (fun l => l.order_id = some order.order_id) = some L1 ∧
       create_order store order keygen now
         = (.alreadyIssued L1.order_id L1.license_key "order_id", store)) ∨
    (store.find? (fun l => l.order_id = some order.order_id) = none ∧
     ∃ L2, store.find? (fun l => l.user_email = order.email ∧
              l.app_id = order.product ∧ l.status ≠ .revoked) = some L2 ∧
       create_order store order keygen now
         = (.alreadyIssued L2.order_id L2.license_key "email+product", store)) ∨
    (store.find? (fun l => l.order_id = some order.order_id) = none ∧
     create_order store order keygen now = (.createFailed, store)) ∨
    (store.find? (fun l => l.order_id = some order.order_id) = none ∧
     create_order store order keygen now
       = (.issued (pickKeyAux store keygen (keygen 0) 0 5),
          store ++ [freshOrderLicense store order
            (pickKeyAux store keygen (keygen 0) 0 5) now])) := by
  rcases h1 : store.find? (fun l => l.order_id = some order.order_id) with _ | L1
  · rcases h2 : store.find? (fun l => l.user_email = order.email ∧
        l.app_id = order.product ∧ l.status ≠ .revoked) with _ | L2
    · by_cases hcol :
        store.any (fun L => L.license_key = pickKeyAux store keygen (keygen 0) 0 5) = true
      · refine Or.inr (Or.inr (Or.inl ⟨h1, ?_⟩))
        unfold create_order
        simp only [h1, h2]
        rw [if_pos hcol]
      · refine Or.inr (Or.inr (Or.inr ⟨h1, ?_⟩))
        unfold create_order
        simp only [h1, h2]
        rw [if_neg hcol]
        rfl
    · refine Or.inr (Or.inl ⟨h1, L2, h2, ?_⟩)
      unfold create_order
      simp only [h1, h2]
  · refine Or.inl ⟨L1, h1, ?_⟩
    unfold create_order
    simp only [h1]

/-- **C3** — (1) When the store already holds a license with the order's
`order_id`, `create_order` returns that license's key tagged
`idempotent=order_id` and leaves the store unchanged.  (2) Issuing twice with
the same order (first call not a create-failure) returns the same license key
both times and the second call adds no row.  (3) When the first call created
a license, exactly one row with that `order_id` exists afterwards. -/
theorem issue_order_id_idempotent (store : LicenseStore) (order : OrderIn)
    (keygen : Nat → String) (now1 now2 : Int) :
    (∀ L, store.find? (fun l => l.order_id = some order.order_id) = some L →
       create_order store order keygen now1
         = (.alreadyIssued L.order_id L.license_key "order_id", store)) ∧
    ((create_order store order keygen now1).1 ≠ .createFailed →
       issueKey (create_order (create_order store order keygen now1).2 order keygen now2).1
           = issueKey (create_order store order keygen now1).1 ∧
       (create_order (create_order store order keygen now1).2 order keygen now2).2
           = (create_order store order keygen now1).2) ∧
    (∀ k, (create_order store order keygen now1).1 = .issued k →
       ((create_order store order keygen now1).2.countP
          (fun l => l.order_id = some order.order_id)) = 1) := by
  have hcases := create_order_cases store order keygen now1
  refine ⟨?_, ?_, ?_⟩
  · intro L h
    unfold create_order
    simp only [h]
  · intro hne
    rcases hcases with ⟨L1, h1, e1⟩ | ⟨h1, L2, h2, e1⟩ | ⟨h1, e1⟩ | ⟨h1, e1⟩
    · rw [e1]
      unfold create_order
      simp only [h1]
      simp [issueKey]
    · rw [e1]
      unfold create_order
      simp only [h1, h2]
      simp [issueKey]
    · rw [e1] at hne
      exact absurd rfl hne
    · rw [e1]
      have hfind2 : (store ++ [freshOrderLicense store order
          (pickKeyAux store keygen (keygen 0) 0 5) now1]).find?
            (fun l => l.order_id = some order.order_id)
          = some (freshOrderLicense store order
              (pickKeyAux store keygen (keygen 0) 0 5) now1) := by
        rw [find?_append_none _ _ _ h1]
        simp [List.find?, freshOrderLicense]
      unfold create_order
      simp only [hfind2]
      simp [issueKey, freshOrderLicense]
  · intro k hk
    rcases hcases with ⟨L1, h1, e1⟩ | ⟨h1, L2, h2, e1⟩ | ⟨h1, e1⟩ | ⟨h1, e1⟩
    · rw [e1] at hk
      simp at hk
    · rw [e1] at hk
      simp at hk
    · rw [e1] at hk
      simp at hk
    · rw [e1]
      rw [List.countP_append]
      have hz : store.countP (fun l => decide (l.order_id = some order.order_id)) = 0 := by
        rw [List.countP_eq_zero]
        intro a ha
        have := List.find?_eq_none.mp h1 a ha
        simpa using this
      rw [hz]
      simp [List.countP_cons, freshOrderLicense]

/-- **C3** witness: from the empty store, issuing `demoOrder` twice with the
deterministic key stream returns key `SOL-K0` both times and leaves exactly
one `ORD-1` row. -/
theorem issue_order_id_idempotent_witness :
    (∀ L, ([] : LicenseStore).find? (fun l => l.order_id = some demoOrder.order_id) = some L →
       create_order [] demoOrder seqKeygen 0
         = (.alreadyIssued L.order_id L.license_key "order_id", [])) ∧
    ((create_order [] demoOrder seqKeygen 0).1 ≠ .createFailed →
       issueKey (create_order (create_order [] demoOrder seqKeygen 0).2 demoOrder seqKeygen 10).1
           = issueKey (create_order [] demoOrder seqKeygen 0).1 ∧
       (create_order (create_order [] demoOrder seqKeygen 0).2 demoOrder seqKeygen 10).2
           = (create_order [] demoOrder seqKeygen 0).2) ∧
    (∀ k, (create_order [] demoOrder seqKeygen 0).1 = .issued k →
       ((create_order [] demoOrder seqKeygen 0).2.countP
          (fun l => l.order_id = some demoOrder.order_id)) = 1) :=
  issue_order_id_idempotent [] demoOrder seqKeygen 0 10

/-- **C6** (amended) — When the fresh-row insert fails with a
uniqueness-constraint violation, neither orchestrator re-fetches the
already-created license: `license.py`'s `create_order` catches the
`IntegrityError`, rolls back and retries with a freshly generated key,
returning that new key (first conjunct); `internal_orders.py`'s
`create_order` turns the failed commit into an HTTP 500 error to the caller
(second conjunct, staged with every candidate key colliding). -/
theorem issue_retry_on_unique_violation (store other : LicenseStore)
    (payload : OrderPayload) (keygen : Nat → String) (now : Int) (oid : String)
    (order : OrderIn) (kg2 : Nat → String) (now2 : Int)
    (hoid : payload.order_id = some oid)
    (h1 : store.find? (fun L => L.order_id = some oid) = none)
    (h2 : store.find? (fun L => L.user_email = payload.email ∧
            L.app_id = payload.product ∧ L.status = .active) = none)
    (hk0a : store.any (fun L => L.license_key = keygen 0) = false)
    (hk0b : (store ++ other).any (fun L => L.license_key = keygen 0) = true)
    (hk1 : (store ++ other).any (fun L => L.license_key = keygen 1) = false)
    (ho1 : store.find? (fun l => l.order_id = some order.order_id) = none)
    (ho2 : store.find? (fun l => l.user_email = order.email ∧
             l.app_id = order.product ∧ l.status ≠ .revoked) = none)
    (hall : ∀ i, i ≤ 5 → store.any (fun L => L.license_key = kg2 i) = true) :
    create_order_api store other payload keygen now
      = (.issued (keygen 1),
         store ++ other ++ [newApiLicense store payload (keygen 1) now]) ∧
    create_order store order kg2 now2 = (.createFailed, store) := by
  constructor
  · have hgen : genAttempts store other payload keygen now 0 8
        = some (keygen 1,
            store ++ other ++ [newApiLicense store payload (keygen 1) now]) := by
      rw [genAttempts]
      simp only [if_pos (rfl : (0 : Nat) = 0), hk0a, hk0b]
      simp only [Bool.false_eq_true, if_false, if_true]
      rw [genAttempts]
      simp only [Nat.zero_add, hk1]
      rw [if_neg (by omega : ¬ (1 : Nat) = 0)] at *
      simp only [Bool.false_eq_true, if_false]
      simp only [hk1, Bool.false_eq_true, if_false]
      rw [ite_self]
    unfold create_order_api
    simp only [hoid, h1, h2]
    rw [hgen]
    rfl
  · unfold create_order
    simp only [ho1, ho2]
    have e : pickKeyAux store kg2 (kg2 0) 0 5 = kg2 5 := by
      rw [pickKeyAux, if_pos ⟨hall 0 (by omega), by omega⟩]
      rw [pickKeyAux, if_pos ⟨hall (0 + 1) (by omega), by omega⟩]
      rw [pickKeyAux, if_pos ⟨hall (0 + 1 + 1) (by omega), by omega⟩]
      rw [pickKeyAux, if_pos ⟨hall (0 + 1 + 1 + 1) (by omega), by omega⟩]
      rw [pickKeyAux, if_pos ⟨hall (0 + 1 + 1 + 1 + 1) (by omega), by omega⟩]
      rw [pickKeyAux]
    rw [e, if_pos (hall 5 (by omega))]

/-- **C6** counterexample to the claim as stated: lookups miss (the
concurrent row lands after them), the first candidate key `SOL-K0` collides
with the concurrently created `ORD-1` license at commit, yet issue returns a
*new* key `SOL-K1` instead of re-fetching, and afterwards two rows carry
order id `ORD-1`. -/
theorem issue_no_refetch_counterexample :
    seqKeygen 0 = c6Other.license_key ∧
    c6Other.order_id = c6Payload.order_id ∧
    (create_order_api [] [c6Other] c6Payload seqKeygen 0).1 = .issued "SOL-K1" ∧
    IssueResult2.issued "SOL-K1" ≠ IssueResult2.alreadyIssued c6Other.license_key ∧
    ((create_order_api [] [c6Other] c6Payload seqKeygen 0).2.filter
       (fun L => L.order_id = some "ORD-1")).length = 2 := by
  decide

/-- **C6** witness: the amended behavior at a concrete store: `license.py`
returns the freshly generated `SOL-K1` after the `SOL-K0` collision, and
`internal_orders.py` returns the create-failure (HTTP 500) when every
candidate collides. -/
theorem issue_retry_on_unique_violation_witness :
    create_order_api [blockRow] [c6Other] c6Payload seqKeygen 0
      = (.issued (seqKeygen 1),
         [blockRow] ++ [c6Other] ++ [newApiLicense [blockRow] c6Payload (seqKeygen 1) 0]) ∧
    create_order [blockRow] demoOrder constKeygen 5 = (.createFailed, [blockRow]) :=
  issue_retry_on_unique_violation [blockRow] [c6Other] c6Payload seqKeygen 0 "ORD-1"
    demoOrder constKeygen 5
    (by decide) (by decide) (by decide) (by decide) (by decide) (by decide)
    (by decide) (by decide) (by decide)

/-! ## Device-limit invariant -/

theorem updateByKey_forall {P : License → Prop} (store : LicenseStore) (k : String)
    (f : License → License)
    (h : ∀ L ∈ store, P L) (hf : ∀ L ∈ store, L.license_key = k → P (f L)) :
    ∀ L' ∈ updateByKey store k f, P L' := by
  intro L' hL'
  obtain ⟨L, hL, hEq⟩ := mem_updateByKey store k f L' hL'
  by_cases hc : L.license_key = k
  · rw [hEq, if_pos hc]
    exact hf L hL hc
  · rw [hEq, if_neg hc]
    exact h L hL

/-- Fields other than `bound_devices`/`max_devices` do not affect the
invariant. -/
theorem devInvariant_status_lv (L : License) (s : LicenseStatus) (lv : Option Int)
    (h : devInvariant L) :
    devInvariant { L with status := s, last_verified := lv } := by
  cases hM : L.max_devices <;> simp_all [devInvariant]

theorem devInvariant_lv (L : License) (lv : Option Int) (h : devInvariant L) :
    devInvariant { L with last_verified := lv } := by
  cases hM : L.max_devices <;> simp_all [devInvariant]

theorem devInvariant_status (L : License) (s : LicenseStatus) (h : devInvariant L) :
    devInvariant { L with status := s } := by
  cases hM : L.max_devices <;> simp_all [devInvariant]

/-- A single binding always satisfies the invariant. -/
theorem devInvariant_single (L : License) (d : Device) (s : LicenseStatus)
    (lv : Option Int) :
    devInvariant { L with bound_devices := [d], last_verified := lv, status := s } := by
  cases hM : L.max_devices with
  | none => simp [devInvariant, hM]
  | some m =>
      simp only [devInvariant, hM, List.length_singleton]
      omega

/-- **C8** — If every stored license satisfies the bound-device invariant
(count ≤ `max_devices` unless it is 0) and keys are unique, then the
invariant still holds for every row after `validate`, after `activate`
(`license_verify.py`), after the public `activate`
(`public_license_api.py`) and after `issue` (`internal_orders.py`); in
particular no activate path appends a device beyond the limit. -/
theorem device_limit_invariant (store : LicenseStore) (lk dev : String)
    (did aid : Option String) (meta : List (String × String)) (now : Int)
    (order : OrderIn) (keygen : Nat → String)
    (h : ∀ L ∈ store, devInvariant L)
    (huniq : ∀ L1 ∈ store, ∀ L2 ∈ store, L1.license_key = L2.license_key → L1 = L2) :
    (∀ L' ∈ (validate_license store lk did aid now).2, devInvariant L') ∧
    (∀ L' ∈ (activate_license store lk dev aid meta now).2, devInvariant L') ∧
    (∀ L' ∈ (public_activate_license store lk dev meta now).2, devInvariant L') ∧
    (∀ L' ∈ (create_order store order keygen now).2, devInvariant L') := by
  refine ⟨?_, ?_, ?_, ?_⟩
  · -- validate: never touches bound_devices / max_devices
    unfold validate_license
    dsimp only
    split
    · exact h
    split
    · exact h
    next lic heq =>
    split
    · exact h
    split
    · exact updateByKey_forall store _ _ h
        (fun L hL _ => devInvariant_status L .expired (h L hL))
    split
    · exact h
    split
    · split
      · exact h
      split
      · exact updateByKey_forall store _ _ h
          (fun L hL _ => devInvariant_lv L (some now) (h L hL))
      split
      · exact h
      · exact h
    · exact updateByKey_forall store _ _ h
        (fun L hL _ => devInvariant_lv L (some now) (h L hL))
  · -- activate (license_verify.py)
    unfold activate_license
    dsimp only
    split
    · exact h
    split
    · exact h
    next lic heq =>
    have hlicmem : lic ∈ store := List.mem_of_find?_eq_some heq
    have hlickey : lic.license_key = pyStrip lk := by
      have := List.find?_some heq
      simpa using this
    split
    · exact h
    split
    · exact updateByKey_forall store _ _ h
        (fun L hL _ => devInvariant_status L .expired (h L hL))
    split
    · exact h
    split
    · exact updateByKey_forall store _ _ h
        (fun L hL _ => devInvariant_status_lv L .active (some now) (h L hL))
    split
    · exact h
    split
    · -- existing device refreshed: bound list length preserved
      refine updateByKey_forall store _ _ h (fun L hL hk => ?_)
      have hLlic : L = lic := huniq L hL lic hlicmem (by rw [hk, hlickey])
      subst hLlic
      have hI := h L hL
      cases hM : L.max_devices with
      | none => simp [devInvariant, hM]
      | some m =>
          simp only [devInvariant, hM, List.length_map] at hI ⊢
          exact hI
    split
    · -- single-seat override: list of length one
      exact updateByKey_forall store _ _ h
        (fun L _ _ => devInvariant_single L _ .active (some now))
    split
    · -- append: the branch condition guarantees a free slot
      next hcond =>
      refine updateByKey_forall store _ _ h (fun L hL hk => ?_)
      have hLlic : L = lic := huniq L hL lic hlicmem (by rw [hk, hlickey])
      subst hLlic
      cases hM : L.max_devices with
      | none => simp [devInvariant, hM]
      | some m =>
          rw [hM] at hcond
          simp only [devInvariant, hM, List.length_append, List.length_singleton]
          simp only [Option.getD_some] at hcond
          omega
    · exact h
  · -- public activate (public_license_api.py)
    unfold public_activate_license
    dsimp only
    split
    · exact h
    next lic heq =>
    have hlicmem : lic ∈ store := List.mem_of_find?_eq_some heq
    have hlickey : lic.license_key = lk := by
      have := List.find?_some heq
      simpa using this
    split
    · exact h
    split
    · exact h
    split
    · -- existing device refreshed
      refine updateByKey_forall store _ _ h (fun L hL hk => ?_)
      have hLlic : L = lic := huniq L hL lic hlicmem (by rw [hk, hlickey])
      subst hLlic
      have hI := h L hL
      cases hM : L.max_devices with
      | none => simp [devInvariant, hM]
      | some m =>
          simp only [devInvariant, hM, List.length_map] at hI ⊢
          exact hI
    split
    · exact h
    · -- append under the max_devices check
      next hcond =>
      refine updateByKey_forall store _ _ h (fun L hL hk => ?_)
      have hLlic : L = lic := huniq L hL lic hlicmem (by rw [hk, hlickey])
      subst hLlic
      cases hM : L.max_devices with
      | none => simp [devInvariant, hM]
      | some m =>
          rw [hM] at hcond
          simp only [devInvariant, hM, List.length_append, List.length_singleton]
          simp only [decide_eq_true_eq] at hcond
          by_cases hm0 : m = 0
          · exact Or.inl hm0
          · refine Or.inr ?_
            omega
  · -- issue (internal_orders.py): new rows start with an empty bound list
    rcases create_order_cases store order keygen now with
      ⟨L1, h1, e1⟩ | ⟨h1, L2, h2, e1⟩ | ⟨h1, e1⟩ | ⟨h1, e1⟩ <;> rw [e1]
    · exact h
    · exact h
    · exact h
    · intro L' hL'
      rcases List.mem_append.mp hL' with hs | hnew
      · exact h L' hs
      · have : L' = freshOrderLicense store order (pickKeyAux store keygen (keygen 0) 0 5) now :=
          List.mem_singleton.mp hnew
        subst this
        simp [devInvariant, freshOrderLicense]

/-- **C8** witness: the invariant holds for the singleton store and is kept
by all four operations at concrete arguments. -/
theorem device_limit_invariant_witness :
    (∀ L' ∈ (validate_license [scenarioLicense true] scenarioKey (some "DEV-1") none 10).2,
       devInvariant L') ∧
    (∀ L' ∈ (activate_license [scenarioLicense true] scenarioKey "DEV-1" none [] 10).2,
       devInvariant L') ∧
    (∀ L' ∈ (public_activate_license [scenarioLicense true] scenarioKey "DEV-1" [] 10).2,
       devInvariant L') ∧
    (∀ L' ∈ (create_order [scenarioLicense true] demoOrder seqKeygen 10).2,
       devInvariant L') :=
  device_limit_invariant [scenarioLicense true] scenarioKey "DEV-1" (some "DEV-1") none [] 10
    demoOrder seqKeygen
    (by
      intro L hL
      rw [List.mem_singleton.mp hL]
      simp [devInvariant, scenarioLicense])
    (by
      intro L1 h1 L2 h2 _
      rw [List.mem_singleton.mp h1, List.mem_singleton.mp h2])

end Solunex
